import Mathlib

/-!
Verification of the easy-appointments client core: error classification,
retry policy, exponential backoff, response parsing, pagination
normalization, log redaction and availability-slot assembly, shallowly
embedded from the Python sources (`easyappointments/api/base.py`,
`easyappointments/models/paginated_response.py`,
`easyappointments/api/availabilities.py`).
-/

namespace EasyAppointments

/-- JSON-like values as decoded by Python's `json` module (`None`, `bool`,
numbers, strings, lists, dicts).  Python `None` is represented by `null`. -/
inductive JValue where
  | null : JValue
  | bool (b : Bool) : JValue
  | num (n : Int) : JValue
  | str (s : String) : JValue
  | arr (xs : List JValue) : JValue
  | obj (fields : List (String × JValue)) : JValue

/-- The error taxonomy: one kind per exception class in
`easyappointments/exceptions.py` (`unknown` is the base
`EasyAppointmentsError`), plus `transport` for httpx
timeout/transport failures that never produced an HTTP response. -/
inductive ErrorKind where
  | authentication : ErrorKind
  | notFound : ErrorKind
  | validation : ErrorKind
  | rateLimited : ErrorKind
  | serverError : ErrorKind
  | transport : ErrorKind
  | unknown : ErrorKind
deriving DecidableEq, Repr

/-- A classified API error: the fields every `EasyAppointmentsError`
carries (status code, message, response body, request id) plus its kind
(the exception subclass).  The message is a `JValue` because the Python
code stores whatever value it extracted, not necessarily a string. -/
structure ApiError where
  kind : ErrorKind
  statusCode : Option Nat
  message : JValue
  responseBody : Option JValue
  requestId : Option String

/-- The status-code → exception-class mapping of
`BaseAPI._handle_error_response` (base.py lines 147-158). -/
def classifyKind (statusCode : Nat) : ErrorKind :=
  if statusCode = 401 then .authentication
  else if statusCode = 404 then .notFound
  else if statusCode = 400 then .validation
  else if statusCode = 429 then .rateLimited
  else if 500 ≤ statusCode ∧ statusCode < 600 then .serverError
  else .unknown

/-- Single-quote character, used by Python `repr` of strings. -/
def sq : Char := Char.ofNat 39

mutual

/-- Python `repr` of a JSON-decoded value (as used inside `str` of a
list or dict): `None`/`True`/`False`, decimal numbers, single-quoted
strings, `[...]` lists and `\x7b...\x7d` dicts. -/
def pyRepr : JValue → String
  | .null => "None"
  | .bool true => "True"
  | .bool false => "False"
  | .num n => toString n
  | .str s => String.singleton sq ++ s ++ String.singleton sq
  | .arr xs => "[" ++ pyReprList xs ++ "]"
  | .obj fs => "\x7b" ++ pyReprObj fs ++ "\x7d"

/-- Comma-separated `repr`s of list elements. -/
def pyReprList : List JValue → String
  | [] => ""
  | [x] => pyRepr x
  | x :: y :: rest => pyRepr x ++ ", " ++ pyReprList (y :: rest)

/-- Comma-separated `'key': repr(value)` pairs of a dict. -/
def pyReprObj : List (String × JValue) → String
  | [] => ""
  | [(k, v)] => String.singleton sq ++ k ++ String.singleton sq ++ ": " ++ pyRepr v
  | (k, v) :: p :: rest =>
      String.singleton sq ++ k ++ String.singleton sq ++ ": " ++ pyRepr v ++ ", "
        ++ pyReprObj (p :: rest)

end

/-- Python `str` of a JSON-decoded value: a string is returned verbatim,
anything else prints as its `repr`. -/
def pyStr : JValue → String
  | .str s => s
  | v => pyRepr v

/-- Message extraction of `BaseAPI._handle_error_response`
(base.py lines 120-142) for a successfully JSON-decoded body: a
non-empty list joins `str(item)` with `"; "`; a dict uses `message`,
else `error`, else (when some value is a list) per-field formatting,
else `str(body)`; every other body yields `"Unknown error"`. -/
def extractMessage (body : JValue) : JValue :=
  match body with
  | .arr items =>
      if items.length > 0 then
        .str (String.intercalate "; " (items.map pyStr))
      else .str "Unknown error"
  | .obj fields =>
      match fields.lookup "message" with
      | some v => v
      | none =>
        match fields.lookup "error" with
        | some v => v
        | none =>
          if fields.any (fun p => match p.2 with | .arr _ => true | _ => false) then
            .str (String.intercalate "; " (fields.map (fun p =>
              match p.2 with
              | .arr errs => p.1 ++ ": " ++ String.intercalate ", " (errs.map pyStr)
              | v => p.1 ++ ": " ++ pyStr v)))
          else .str (pyRepr (.obj fields))
  | _ => .str "Unknown error"

/-- An HTTP response as the client sees it: status code, raw text,
the result of attempting to JSON-decode that text (`none` when decoding
raises `json.JSONDecodeError`), and the `X-Request-ID` header. -/
structure Response where
  status : Nat
  text : String
  json : Option JValue
  requestId : Option String

/-- `BaseAPI._handle_error_response` (base.py lines 98-158): build the
classified error for a non-2xx response.  On JSON decode failure the
message is the raw text, or `"HTTP error <code>"` when the text is
empty. -/
def handleErrorResponse (r : Response) : ApiError :=
  match r.json with
  | some body =>
      ⟨classifyKind r.status, some r.status, extractMessage body, some body, r.requestId⟩
  | none =>
      ⟨classifyKind r.status, some r.status,
        .str (if r.text = "" then "HTTP error " ++ toString r.status else r.text),
        none, r.requestId⟩

/-- httpx `Response.is_success`: status codes 200-299. -/
def isSuccess (status : Nat) : Bool := decide (200 ≤ status ∧ status < 300)

/-- The set of retryable failures of `BaseAPI._make_request`
(`retry_if_exception_type((RateLimitError, ServerError,
httpx.TimeoutException, httpx.TransportError))`, base.py lines 258-261;
identical to `BaseAPI._should_retry`, lines 160-178).  Timeout and
transport exceptions are the `transport` kind of the taxonomy. -/
def retryableKind : ErrorKind → Bool
  | .rateLimited => true
  | .serverError => true
  | .transport => true
  | _ => false

/-- Body parsing of `_execute_request` (base.py lines 266-294) with
`return_raw=False`: non-2xx statuses are classified by
`_handle_error_response`; status 204 short-circuits to an empty dict;
other success statuses return the JSON-decoded body, and a success body
that fails to decode raises the base `EasyAppointmentsError` (kind
`unknown`) carrying the status code and the first 100 characters of the
raw text. -/
def processResponse (r : Response) : Except ApiError JValue :=
  if isSuccess r.status then
    if r.status = 204 then .ok (.obj [])
    else
      match r.json with
      | some v => .ok v
      | none =>
          .error ⟨.unknown, some r.status,
            .str ("Invalid JSON response: " ++ (r.text.take 100) ++ "..."),
            none, none⟩
  else .error (handleErrorResponse r)

/-- The tenacity-driven retry loop of `_make_request` (base.py lines
258-306): `att n` is the outcome of attempt number `n`; after a failed
attempt `n` the loop retries exactly when the exception is of a
retryable type and `n < maxAttempts` (`stop_after_attempt` stops once
`attempt_number ≥ max`), and with `reraise=True` the last exception is
re-raised unchanged when the loop stops.  Returns the final outcome and
the number of the last attempt made.  `fuel` bounds the recursion; the
`n < maxAttempts` guard means `fuel = maxAttempts` never runs out. -/
def retryLoop (att : Nat → Except ApiError JValue) (maxAttempts : Nat) :
    Nat → Nat → Except ApiError JValue × Nat
  | 0, n =>
    match att n with
    | .ok v => (.ok v, n)
    | .error e => (.error e, n)
  | fuel + 1, n =>
    match att n with
    | .ok v => (.ok v, n)
    | .error e =>
      if retryableKind e.kind ∧ n < maxAttempts then
        retryLoop att maxAttempts fuel (n + 1)
      else (.error e, n)

/-- `_make_request`'s execution of `_execute_request` under the retry
decorator: attempts are numbered from 1 and at most `maxRetries`
(`stop_after_attempt(self._max_retries)`, default 3) are made. -/
def makeRequest (att : Nat → Except ApiError JValue) (maxRetries : Nat) :
    Except ApiError JValue × Nat :=
  retryLoop att maxRetries maxRetries 1

/-- tenacity's `wait_exponential(multiplier, max, exp_base=2, min)`
(tenacity 8.2.2, wait.py:157-164) evaluated after attempt number `n`
fails (`attempt_number` is still the failed attempt's number there):
`max(max(0, min), min(multiplier * 2^(attempt_number - 1), max))`.
Attempt numbers start at 1; delays are rationals (Python floats; every
value involved here is exactly representable). -/
def waitExponential (multiplier mn mx : ℚ) (n : ℕ) : ℚ :=
  max (max 0 mn) (min (multiplier * 2 ^ (n - 1)) mx)

/-- The backoff configured by `_make_request` (base.py line 263):
`wait_exponential(multiplier=retry_delay, min=retry_delay,
max=retry_delay * 10)`, giving the delay the executor waits after
attempt `n` fails, before re-issuing the request. -/
def backoffWait (retryDelay : ℚ) (n : ℕ) : ℚ :=
  waitExponential retryDelay retryDelay (retryDelay * 10) n

/-- `PaginatedResponse` (paginated_response.py): cursors and total are
kept as the raw values the Python code stores (`JValue.null` is Python
`None`), items are the decoded results. -/
structure PaginatedResponse (α : Type) where
  next : JValue
  previous : JValue
  total : JValue
  results : List α

/-- `PaginatedResponse.from_list` (paginated_response.py lines 41-73):
decode each element with the item decoder (`decoder x = none` models a
raised validation exception, logged and skipped), no cursors, `total` =
number of successfully decoded elements. -/
def fromList (decoder : JValue → Option α) (data : List JValue) :
    PaginatedResponse α :=
  let results := data.filterMap decoder
  ⟨.null, .null, .num results.length, results⟩

/-- Python `d.get(k, default)`: the stored value when the key is present
(even when that value is `None`), else the default. -/
def pyGetD (fields : List (String × JValue)) (k : String) (dflt : JValue) : JValue :=
  match fields.lookup k with
  | some v => v
  | none => dflt

/-- `PaginatedResponse.from_dict` (paginated_response.py lines 75-120):
a list delegates to `from_list`; a falsy (`[]`) or non-dict payload
yields the empty page; otherwise items come from the `results` key
(reset to `[]` when absent or not a list), `total` from the `total` key
(defaulting to the decoded count), and `next`/`previous` are
`data.get(...)` pass-throughs. -/
def fromDict (decoder : JValue → Option α) (data : JValue) :
    PaginatedResponse α :=
  match data with
  | .arr xs => fromList decoder xs
  | .obj fields =>
    if fields.isEmpty then ⟨.null, .null, .num 0, []⟩
    else
      let resultsData :=
        match fields.lookup "results" with
        | some (.arr xs) => xs
        | _ => []
      let results := resultsData.filterMap decoder
      ⟨pyGetD fields "next" .null, pyGetD fields "previous" .null,
        pyGetD fields "total" (.num results.length), results⟩
  | _ => ⟨.null, .null, .num 0, []⟩

/-- Python truthiness of a JSON-decoded value. -/
def truthy : JValue → Bool
  | .null => false
  | .bool b => b
  | .num n => decide (n ≠ 0)
  | .str s => decide (s ≠ "")
  | .arr xs => !xs.isEmpty
  | .obj fs => !fs.isEmpty

/-- The sensitive field names of `BaseAPI._mask_sensitive_data`
(base.py line 193), in source order. -/
def sensitiveFields : List String := ["api_key", "key", "secret", "password", "token"]

/-- Python `d[k] = v` on a dict with unique keys: replace the value
stored under `k`, preserving insertion order. -/
def setField (d : List (String × JValue)) (k : String) (v : JValue) :
    List (String × JValue) :=
  d.map fun p => if p.1 = k then (k, v) else p

/-- One iteration of the masking loop of `_mask_sensitive_data`
(base.py lines 196-198): `if field in masked_data and
masked_data[field]: masked_data[field] = "*****"`. -/
def maskField (d : List (String × JValue)) (f : String) :
    List (String × JValue) :=
  match d.lookup f with
  | some v => if truthy v then setField d f (.str "*****") else d
  | none => d

/-- `BaseAPI._mask_sensitive_data` (base.py lines 180-200): an empty
(falsy) dict is returned as is; otherwise each sensitive field whose
stored value is truthy is overwritten with `"*****"`. -/
def maskSensitiveData (d : List (String × JValue)) : List (String × JValue) :=
  if d.isEmpty then d
  else sensitiveFields.foldl maskField d

/-- The consecutive-pair assembly of
`AvailabilitiesAPI.get_provider_availability` (availabilities.py lines
44-49): `for i in range(len(response) - 1):
available_slots.append({"start": response[i], "end": response[i+1]})`. -/
def pairSlots : List JValue → List JValue
  | x :: y :: rest => .obj [("start", x), ("end", y)] :: pairSlots (y :: rest)
  | _ => []

/-- The `available_slots` value `get_provider_availability` passes to
the `Availability` constructor (availabilities.py lines 41-54): a list
response becomes its consecutive pairs, a dict containing the key
`available` passes that value through verbatim, anything else yields the
empty list. -/
def availableSlots (response : JValue) : JValue :=
  match response with
  | .arr xs => .arr (pairSlots xs)
  | .obj fields =>
    match fields.lookup "available" with
    | some v => v
    | none => .arr []
  | _ => .arr []

/-- `TimeSlot` (models/availability.py): a start/end pair of validated
time strings. -/
structure TimeSlot where
  start : String
  «end» : String

/-- Pydantic coercion of one raw value into a `TimeSlot`
(models/availability.py lines 9-22): the value must be a dict whose
`start` and `end` are strings accepted by the time-format validator.
`validTime` abstracts Python's `time.fromisoformat` acceptance. -/
def validateTimeSlot (validTime : String → Bool) (v : JValue) : Option TimeSlot :=
  match v with
  | .obj fields =>
    match fields.lookup "start", fields.lookup "end" with
    | some (.str s), some (.str e) =>
        if validTime s ∧ validTime e then some ⟨s, e⟩ else none
    | _, _ => none
  | _ => none

/-- `Availability` (models/availability.py lines 24-26). -/
structure Availability where
  available : List TimeSlot

/-- Pydantic construction `Availability(available=v)`: `v` must be a
list and every element must coerce to a `TimeSlot`, otherwise a
`ValidationError` is raised (`none`). -/
def mkAvailability (validTime : String → Bool) (v : JValue) : Option Availability :=
  match v with
  | .arr xs => (xs.mapM (validateTimeSlot validTime)).map Availability.mk
  | _ => none

/-- `get_provider_availability`'s handling of a decoded response payload
(availabilities.py lines 39-54): assemble `available_slots`, then build
the `Availability` model. -/
def getProviderAvailability (validTime : String → Bool) (response : JValue) :
    Option Availability :=
  mkAvailability validTime (availableSlots response)

/-- The consecutive pairs of a list of time strings, as `TimeSlot`s:
the expected value of the list branch of `get_provider_availability`. -/
def pairTimes : List String → List TimeSlot
  | x :: y :: rest => ⟨x, y⟩ :: pairTimes (y :: rest)
  | _ => []

lemma handleErrorResponse_kind (r : Response) :
    (handleErrorResponse r).kind = classifyKind r.status := by
  unfold handleErrorResponse
  cases r.json <;> rfl

/-- C1: on every non-2xx response the classifier is a pure function of the
status code alone: 401 → Authentication, 404 → NotFound, 400 → Validation,
429 → RateLimited, 500-599 → ServerError, every other non-2xx status →
Unknown (the base `EasyAppointmentsError`).  Determinism and absence of
side effects are inherent in `handleErrorResponse` being a function. -/
theorem error_classifier_status_mapping (r : Response)
    (_hne : ¬ (200 ≤ r.status ∧ r.status < 300)) :
    (r.status = 401 → (handleErrorResponse r).kind = .authentication) ∧
    (r.status = 404 → (handleErrorResponse r).kind = .notFound) ∧
    (r.status = 400 → (handleErrorResponse r).kind = .validation) ∧
    (r.status = 429 → (handleErrorResponse r).kind = .rateLimited) ∧
    (500 ≤ r.status ∧ r.status < 600 → (handleErrorResponse r).kind = .serverError) ∧
    (r.status ≠ 401 → r.status ≠ 404 → r.status ≠ 400 → r.status ≠ 429 →
      ¬ (500 ≤ r.status ∧ r.status < 600) →
      (handleErrorResponse r).kind = .unknown) := by
  simp only [handleErrorResponse_kind, classifyKind]
  refine ⟨?_, ?_, ?_, ?_, ?_, ?_⟩ <;> intros <;> split_ifs <;>
    first | rfl | omega

/-- Witness for C1 at concrete statuses. -/
theorem error_classifier_status_mapping_witness :
    (handleErrorResponse ⟨404, "", none, none⟩).kind = .notFound ∧
    (handleErrorResponse ⟨503, "", none, none⟩).kind = .serverError ∧
    (handleErrorResponse ⟨302, "", none, none⟩).kind = .unknown :=
  ⟨(error_classifier_status_mapping ⟨404, "", none, none⟩ (by decide)).2.1 rfl,
   (error_classifier_status_mapping ⟨503, "", none, none⟩ (by decide)).2.2.2.2.1 (by decide),
   (error_classifier_status_mapping ⟨302, "", none, none⟩ (by decide)).2.2.2.2.2
     (by decide) (by decide) (by decide) (by decide) (by decide)⟩

/-- C5 counterexample: the claim's rule (5) says any body not matching
rules (1)-(4) is stringified, so a JSON body `42` should give message
`"42"`; the code gives the fixed `"Unknown error"` instead (the
stringify fallback only applies to dict bodies). -/
theorem extract_message_counterexample :
    extractMessage (.num 42) = .str "Unknown error" ∧
    pyStr (.num 42) = "42" ∧
    ("Unknown error" : String) ≠ "42" :=
  ⟨rfl, rfl, by decide⟩

/-- C5 (amended): message extraction priority, first match wins:
(1) a non-empty array joins `str(item)` with `"; "`; (2) an object with
key `message` uses that value; (3) else key `error`; (4) else an object
with some array value formats fields as `"field: err1, err2"` joined by
`"; "`; (5) an object matching none of these is stringified whole; any other
JSON body (null, boolean, number, string, empty array) yields the
fixed `"Unknown error"`; (6) a body that fails JSON
parsing uses the raw text, or `"HTTP error <code>"` when empty. -/
theorem extract_message_priority :
    (∀ items : List JValue, items ≠ [] →
      extractMessage (.arr items) = .str (String.intercalate "; " (items.map pyStr))) ∧
    (∀ fs v, fs.lookup "message" = some v → extractMessage (.obj fs) = v) ∧
    (∀ fs v, fs.lookup "message" = none → fs.lookup "error" = some v →
      extractMessage (.obj fs) = v) ∧
    (∀ fs, fs.lookup "message" = none → fs.lookup "error" = none →
      fs.any (fun p => match p.2 with | .arr _ => true | _ => false) = true →
      extractMessage (.obj fs) = .str (String.intercalate "; " (fs.map (fun p =>
        match p.2 with
        | .arr errs => p.1 ++ ": " ++ String.intercalate ", " (errs.map pyStr)
        | v => p.1 ++ ": " ++ pyStr v)))) ∧
    (∀ fs, fs.lookup "message" = none → fs.lookup "error" = none →
      fs.any (fun p => match p.2 with | .arr _ => true | _ => false) = false →
      extractMessage (.obj fs) = .str (pyStr (.obj fs))) ∧
    (extractMessage .null = .str "Unknown error") ∧
    (∀ b, extractMessage (.bool b) = .str "Unknown error") ∧
    (∀ n, extractMessage (.num n) = .str "Unknown error") ∧
    (∀ s, extractMessage (.str s) = .str "Unknown error") ∧
    (extractMessage (.arr []) = .str "Unknown error") ∧
    (∀ r : Response, r.json = none → (handleErrorResponse r).message =
      .str (if r.text = "" then "HTTP error " ++ toString r.status else r.text)) := by
  refine ⟨?_, ?_, ?_, ?_, ?_, rfl, fun _ => rfl, fun _ => rfl, fun _ => rfl, rfl, ?_⟩
  · intro items h
    cases items with
    | nil => exact absurd rfl h
    | cons x xs => simp [extractMessage]
  · intro fs v h
    simp [extractMessage, h]
  · intro fs v h1 h2
    simp [extractMessage, h1, h2]
  · intro fs h1 h2 h3
    simp [extractMessage, h1, h2, h3]
  · intro fs h1 h2 h3
    simp [extractMessage, h1, h2, h3, pyStr]
  · intro r h
    simp [handleErrorResponse, h]

/-- Witness for C5's amended rules at concrete bodies. -/
theorem extract_message_priority_witness :
    extractMessage (.arr [.str "a", .num 2]) = .str "a; 2" ∧
    extractMessage (.obj [("message", .str "m")]) = .str "m" ∧
    extractMessage (.obj [("error", .str "e")]) = .str "e" ∧
    extractMessage (.obj [("f", .arr [.str "e1", .str "e2"])]) = .str "f: e1, e2" ∧
    (handleErrorResponse ⟨500, "", none, none⟩).message = .str "HTTP error 500" :=
  ⟨(extract_message_priority.1 [.str "a", .num 2] (by simp)).trans rfl,
   extract_message_priority.2.1 [("message", .str "m")] _ rfl,
   extract_message_priority.2.2.1 [("error", .str "e")] _ rfl rfl,
   ((extract_message_priority.2.2.2.1 [("f", .arr [.str "e1", .str "e2"])]
     rfl rfl rfl).trans rfl),
   (extract_message_priority.2.2.2.2.2.2.2.2.2.2 ⟨500, "", none, none⟩ rfl).trans rfl⟩

/-- C9 counterexample: the claim's sensitive-field list is `password`,
`token`, `secret`, `key` with unconditional replacement; the code also
masks `api_key` (so `api_key` is not "left untouched") and skips
falsy values (so a `password` holding `""` is not replaced). -/
theorem mask_sensitive_counterexample :
    maskSensitiveData [("api_key", .str "x"), ("name", .str "y")]
      = [("api_key", .str "*****"), ("name", .str "y")] ∧
    ("*****" : String) ≠ "x" ∧
    maskSensitiveData [("password", .str "")] = [("password", .str "")] ∧
    ("" : String) ≠ "*****" :=
  ⟨rfl, by decide, rfl, by decide⟩

/-- The per-entry effect of the masking loop on a dict with unique keys:
a sensitive-named, truthy-valued entry is overwritten, everything else
is untouched. -/
def maskEntry (fields : List String) (p : String × JValue) : String × JValue :=
  if p.1 ∈ fields ∧ truthy p.2 then (p.1, .str "*****") else p

lemma maskEntry_keys (fields : List String) (d : List (String × JValue)) :
    (d.map (maskEntry fields)).map Prod.fst = d.map Prod.fst := by
  rw [List.map_map]
  refine List.map_congr_left (fun p _ => ?_)
  show Prod.fst (maskEntry fields p) = p.1
  unfold maskEntry
  split <;> rfl

lemma setField_cons (k : String) (v : JValue) (rest : List (String × JValue))
    (f : String) (w : JValue) :
    setField ((k, v) :: rest) f w
      = (if k = f then (f, w) else (k, v)) :: setField rest f w := rfl

lemma maskField_cons_ne (k : String) (v : JValue) (rest : List (String × JValue))
    (f : String) (h : f ≠ k) :
    maskField ((k, v) :: rest) f = (k, v) :: maskField rest f := by
  unfold maskField
  have hbeq : (f == k) = false := by simp [h]
  rw [List.lookup_cons]
  simp only [hbeq]
  cases hr : rest.lookup f with
  | none => rfl
  | some v' =>
    dsimp only
    split
    · unfold setField
      simp only [List.map_cons]
      rw [if_neg (by simpa using fun hk => h hk.symm)]
    · rfl

lemma setField_of_not_mem (d : List (String × JValue)) (f : String) (v : JValue)
    (h : f ∉ d.map Prod.fst) : setField d f v = d := by
  unfold setField
  conv_rhs => rw [← List.map_id d]
  refine List.map_congr_left (fun p hp => ?_)
  have hne : ¬ p.1 = f := fun hq => h (hq ▸ List.mem_map_of_mem Prod.fst hp)
  simp [hne]

lemma maskField_eq_map (d : List (String × JValue)) (f : String)
    (hnd : (d.map Prod.fst).Nodup) :
    maskField d f = d.map (maskEntry [f]) := by
  induction d with
  | nil => rfl
  | cons p rest ih =>
    obtain ⟨k, v⟩ := p
    simp only [List.map_cons, List.nodup_cons] at hnd
    obtain ⟨hk, hrest⟩ := hnd
    by_cases hf : f = k
    · subst hf
      have hmaprest : rest.map (maskEntry [f]) = rest := by
        conv_rhs => rw [← List.map_id rest]
        refine List.map_congr_left (fun q hq => ?_)
        have hqf : ¬ q.1 ∈ [f] := by
          simp only [List.mem_singleton]
          exact fun hqf => hk (by rw [← hqf]; exact List.mem_map_of_mem Prod.fst hq)
        show maskEntry [f] q = q
        unfold maskEntry
        exact if_neg (fun hc => hqf hc.1)
      unfold maskField
      rw [List.lookup_cons]
      simp only [beq_self_eq_true]
      rw [List.map_cons, hmaprest]
      by_cases ht : truthy v = true
      · rw [if_pos ht, setField_cons, if_pos rfl, setField_of_not_mem rest f _ hk]
        have hme : maskEntry [f] (f, v) = (f, .str "*****") := by
          unfold maskEntry
          rw [if_pos ⟨by simp, ht⟩]
        rw [hme]
      · rw [if_neg ht]
        have hme : maskEntry [f] (f, v) = (f, v) := by
          unfold maskEntry
          exact if_neg (fun hc => ht hc.2)
        rw [hme]
    · rw [maskField_cons_ne k v rest f hf, ih hrest, List.map_cons]
      have hkf : ¬ (k, v).1 ∈ [f] := by
        simp only [List.mem_singleton]
        exact fun h => hf h.symm
      have hme : maskEntry [f] (k, v) = (k, v) := by
        unfold maskEntry
        exact if_neg (fun hc => hkf hc.1)
      rw [hme]

lemma maskEntry_comp (f : String) (fs : List String) (p : String × JValue) :
    maskEntry fs (maskEntry [f] p) = maskEntry (f :: fs) p := by
  by_cases h2 : truthy p.2 = true
  · by_cases h1 : p.1 = f
    · have hinner : maskEntry [f] p = (p.1, .str "*****") := by
        unfold maskEntry
        rw [if_pos ⟨by simp [h1], h2⟩]
      have hout : maskEntry (f :: fs) p = (p.1, .str "*****") := by
        unfold maskEntry
        rw [if_pos ⟨by simp [h1], h2⟩]
      rw [hinner, hout]
      unfold maskEntry
      split <;> rfl
    · have hinner : maskEntry [f] p = p := by
        unfold maskEntry
        exact if_neg (fun hc => h1 (by simpa using hc.1))
      rw [hinner]
      unfold maskEntry
      by_cases h3 : p.1 ∈ fs
      · rw [if_pos ⟨h3, h2⟩, if_pos ⟨by simp [List.mem_cons, h3], h2⟩]
      · rw [if_neg (fun hc => h3 hc.1), if_neg (fun hc => ?_)]
        rcases List.mem_cons.mp hc.1 with h | h
        · exact h1 h
        · exact h3 h
  · have hinner : maskEntry [f] p = p := by
      unfold maskEntry
      exact if_neg (fun hc => h2 hc.2)
    rw [hinner]
    unfold maskEntry
    rw [if_neg (fun hc => h2 hc.2), if_neg (fun hc => h2 hc.2)]

lemma foldl_maskField_eq_map (fields : List String) (d : List (String × JValue))
    (hnd : (d.map Prod.fst).Nodup) :
    fields.foldl maskField d = d.map (maskEntry fields) := by
  induction fields generalizing d with
  | nil =>
    simp only [List.foldl_nil]
    conv_lhs => rw [← List.map_id d]
    refine List.map_congr_left (fun p _ => ?_)
    show p = maskEntry [] p
    unfold maskEntry
    exact (if_neg (fun hc => List.not_mem_nil _ hc.1)).symm
  | cons f fs ih =>
    have hnd' : ((d.map (maskEntry [f])).map Prod.fst).Nodup := by
      rw [maskEntry_keys]; exact hnd
    rw [List.foldl_cons, maskField_eq_map d f hnd, ih _ hnd', List.map_map]
    exact List.map_congr_left (fun p _ => maskEntry_comp f fs p)

/-- C9 (amended): for a request body with unique field names, masking
replaces the value of each top-level field named `api_key`, `key`,
`secret`, `password` or `token` (case-sensitive) whose value is truthy
with the fixed string `"*****"`, and leaves every other field — and any
sensitive-named field holding a falsy value — untouched.  The body is
logged exactly once per logical call, before the first attempt, in this
masked form, so no unmasked body is ever logged. -/
theorem mask_redaction_amended (d : List (String × JValue))
    (hnd : (d.map Prod.fst).Nodup) :
    maskSensitiveData d = d.map (maskEntry sensitiveFields) := by
  unfold maskSensitiveData
  cases d with
  | nil => rfl
  | cons p rest =>
    rw [if_neg (by simp)]
    exact foldl_maskField_eq_map sensitiveFields (p :: rest) hnd

/-- Witness for C9's amended statement: the spec's own example body. -/
theorem mask_redaction_amended_witness :
    maskSensitiveData [("password", .str "x"), ("name", .str "y")]
      = [("password", .str "*****"), ("name", .str "y")] :=
  (mask_redaction_amended [("password", .str "x"), ("name", .str "y")]
    (by decide)).trans rfl

/-- C3: the delay the executor waits after failed attempt `n ≥ 1`,
before re-issuing the request, equals `min(b·2^(n-1), b·10)` (the
`min=b` clamp of the configured `wait_exponential` never binds there);
with `b = 1s` the delays for attempts 1, 2, 3, 4 are 1s, 2s, 4s, 8s;
for every attempt the delay never exceeds `b·10` and is monotonically
non-decreasing in the attempt number. -/
theorem backoff_delay_formula :
    (∀ (b : ℚ) (n : ℕ), 0 ≤ b → 1 ≤ n →
      backoffWait b n = min (b * 2 ^ (n - 1)) (b * 10)) ∧
    (backoffWait 1 1 = 1 ∧ backoffWait 1 2 = 2 ∧ backoffWait 1 3 = 4 ∧
      backoffWait 1 4 = 8) ∧
    (∀ (b : ℚ) (n : ℕ), 0 ≤ b → backoffWait b n ≤ b * 10) ∧
    (∀ (b : ℚ) (n m : ℕ), 0 ≤ b → n ≤ m → backoffWait b n ≤ backoffWait b m) := by
  refine ⟨?_, ⟨?_, ?_, ?_, ?_⟩, ?_, ?_⟩
  · intro b n hb _hn
    unfold backoffWait waitExponential
    rw [max_eq_right hb]
    refine max_eq_right (le_min ?_ (by linarith))
    have h20 : (2 : ℚ) ^ 0 ≤ 2 ^ (n - 1) :=
      pow_le_pow_right₀ (by norm_num) (Nat.zero_le (n - 1))
    rw [pow_zero] at h20
    calc b = b * 1 := by ring
    _ ≤ b * 2 ^ (n - 1) := mul_le_mul_of_nonneg_left h20 hb
  · unfold backoffWait waitExponential
    rw [show ((1 : ℚ) * 2 ^ (1 - 1)) = 1 by norm_num, show ((1 : ℚ) * 10) = 10 by norm_num]
    rw [min_eq_left (by norm_num), max_eq_right (by norm_num)]
  · unfold backoffWait waitExponential
    rw [show ((1 : ℚ) * 2 ^ (2 - 1)) = 2 by norm_num, show ((1 : ℚ) * 10) = 10 by norm_num]
    rw [min_eq_left (by norm_num), max_eq_right (by norm_num)]
  · unfold backoffWait waitExponential
    rw [show ((1 : ℚ) * 2 ^ (3 - 1)) = 4 by norm_num, show ((1 : ℚ) * 10) = 10 by norm_num]
    rw [min_eq_left (by norm_num), max_eq_right (by norm_num)]
  · unfold backoffWait waitExponential
    rw [show ((1 : ℚ) * 2 ^ (4 - 1)) = 8 by norm_num, show ((1 : ℚ) * 10) = 10 by norm_num]
    rw [min_eq_left (by norm_num), max_eq_right (by norm_num)]
  · intro b n hb
    unfold backoffWait waitExponential
    refine max_le ?_ (min_le_right _ _)
    exact max_le (by linarith) (by linarith)
  · intro b n m hb hnm
    unfold backoffWait waitExponential
    refine max_le_max le_rfl (min_le_min ?_ le_rfl)
    exact mul_le_mul_of_nonneg_left
      (pow_le_pow_right₀ (by norm_num) (Nat.sub_le_sub_right hnm 1)) hb

/-- Witness for C3 at concrete attempts and delays. -/
theorem backoff_delay_formula_witness :
    backoffWait 1 3 = min ((1 : ℚ) * 2 ^ (3 - 1)) (1 * 10) ∧
    backoffWait 1 5 ≤ 1 * 10 ∧
    backoffWait 1 2 ≤ backoffWait 1 6 :=
  ⟨backoff_delay_formula.1 1 3 (by norm_num) (by norm_num),
   backoff_delay_formula.2.2.1 1 5 (by norm_num),
   backoff_delay_formula.2.2.2 1 2 6 (by norm_num) (by norm_num)⟩

lemma length_filterMap_of_isSome {α β : Type} (f : α → Option β) (l : List α)
    (h : ∀ x ∈ l, (f x).isSome) : (l.filterMap f).length = l.length := by
  induction l with
  | nil => rfl
  | cons x xs ih =>
    obtain ⟨y, hy⟩ := Option.isSome_iff_exists.mp (h x (List.mem_cons_self x xs))
    rw [List.filterMap_cons, hy]
    simp only [List.length_cons]
    rw [ih (fun z hz => h z (List.mem_cons_of_mem x hz))]

/-- C6: a bare-array payload is normalized by decoding each element,
skipping (only) the elements on which the decoder fails, with no
cursors and `total` equal to the number of successfully decoded
elements; when every element decodes, `total` equals the array
length. -/
theorem normalize_list_payload {α : Type} (decoder : JValue → Option α)
    (data : List JValue) :
    fromDict decoder (.arr data) = fromList decoder data ∧
    (fromList decoder data).results = data.filterMap decoder ∧
    (fromList decoder data).total = .num (data.filterMap decoder).length ∧
    (fromList decoder data).next = .null ∧
    (fromList decoder data).previous = .null ∧
    ((∀ x ∈ data, (decoder x).isSome) →
      (fromList decoder data).total = .num data.length ∧
      (fromList decoder data).results.length = data.length) := by
  refine ⟨rfl, rfl, rfl, rfl, rfl, fun h => ?_⟩
  have hlen := length_filterMap_of_isSome decoder data h
  constructor
  · show JValue.num (List.filterMap decoder data).length = JValue.num data.length
    rw [hlen]
  · show (List.filterMap decoder data).length = data.length
    exact hlen

/-- Witness for C6 on the spec's example `[1, 2]` with a decoder that
always succeeds. -/
theorem normalize_list_payload_witness :
    (fromList (fun v => some v) [JValue.num 1, JValue.num 2]).total = .num 2 ∧
    (fromList (fun v => some v) [JValue.num 1, JValue.num 2]).results.length = 2 :=
  (normalize_list_payload (fun v => some v) [JValue.num 1, JValue.num 2]).2.2.2.2.2
    (fun _ _ => rfl)

/-- C7: an object payload takes its items from the `results` key
(empty when absent or not an array), its `total` verbatim from the
`total` key when present and otherwise the decoded count, and its
cursors verbatim from `next`/`previous` (`null` when absent); a null
or any other non-array, non-object payload yields the empty page
`total = 0`, no items, no cursors, without failing. -/
theorem normalize_object_payload {α : Type} (decoder : JValue → Option α) :
    (∀ fs, (fromDict decoder (.obj fs)).results =
      (match fs.lookup "results" with
       | some (.arr xs) => xs
       | _ => []).filterMap decoder) ∧
    (∀ fs v, fs.lookup "total" = some v → (fromDict decoder (.obj fs)).total = v) ∧
    (∀ fs, fs.lookup "total" = none → (fromDict decoder (.obj fs)).total =
      .num (fromDict decoder (.obj fs)).results.length) ∧
    (∀ fs v, fs.lookup "next" = some v → (fromDict decoder (.obj fs)).next = v) ∧
    (∀ fs, fs.lookup "next" = none → (fromDict decoder (.obj fs)).next = .null) ∧
    (∀ fs v, fs.lookup "previous" = some v →
      (fromDict decoder (.obj fs)).previous = v) ∧
    (∀ fs, fs.lookup "previous" = none →
      (fromDict decoder (.obj fs)).previous = .null) ∧
    (fromDict decoder .null = ⟨.null, .null, .num 0, []⟩) ∧
    (∀ b, fromDict decoder (.bool b) = ⟨.null, .null, .num 0, []⟩) ∧
    (∀ n, fromDict decoder (.num n) = ⟨.null, .null, .num 0, []⟩) ∧
    (∀ s, fromDict decoder (.str s) = ⟨.null, .null, .num 0, []⟩) := by
  refine ⟨?_, ?_, ?_, ?_, ?_, ?_, ?_, rfl, fun _ => rfl, fun _ => rfl, fun _ => rfl⟩
  · intro fs
    cases fs with
    | nil => rfl
    | cons p rest => simp [fromDict]
  · intro fs v h
    cases fs with
    | nil => simp at h
    | cons p rest => simp [fromDict, pyGetD, h]
  · intro fs h
    cases fs with
    | nil => rfl
    | cons p rest => simp [fromDict, pyGetD, h]
  · intro fs v h
    cases fs with
    | nil => simp at h
    | cons p rest => simp [fromDict, pyGetD, h]
  · intro fs h
    cases fs with
    | nil => rfl
    | cons p rest => simp [fromDict, pyGetD, h]
  · intro fs v h
    cases fs with
    | nil => simp at h
    | cons p rest => simp [fromDict, pyGetD, h]
  · intro fs h
    cases fs with
    | nil => rfl
    | cons p rest => simp [fromDict, pyGetD, h]

/-- Witness for C7 on the spec's example envelope
`{results: [1], total: 5, next: "p2"}` and the null payload. -/
theorem normalize_object_payload_witness :
    (fromDict (fun v => some v)
      (.obj [("results", .arr [.num 1]), ("total", .num 5), ("next", .str "p2")])).total
      = .num 5 ∧
    (fromDict (fun v => some v)
      (.obj [("results", .arr [.num 1]), ("total", .num 5), ("next", .str "p2")])).next
      = .str "p2" ∧
    (fromDict (fun v => some v)
      (.obj [("results", .arr [.num 1]), ("total", .num 5), ("next", .str "p2")])).previous
      = .null :=
  ⟨(normalize_object_payload (fun v => some v)).2.1 _ (.num 5) rfl,
   (normalize_object_payload (fun v => some v)).2.2.2.1 _ (.str "p2") rfl,
   (normalize_object_payload (fun v => some v)).2.2.2.2.2.2.1 _ rfl⟩

/-- C8: a 204 response yields an empty payload even without a parsable
body; every other success status returns the JSON-decoded body; a
success-status body that fails to decode raises an `unknown`-kind
`ApiError` carrying the status code and a truncated raw-text excerpt,
and that kind is not retryable. -/
theorem success_response_parsing (r : Response) (hs : isSuccess r.status = true) :
    (r.status = 204 → processResponse r = .ok (.obj [])) ∧
    (r.status ≠ 204 → ∀ v, r.json = some v → processResponse r = .ok v) ∧
    (r.status ≠ 204 → r.json = none →
      processResponse r = .error ⟨.unknown, some r.status,
        .str ("Invalid JSON response: " ++ (r.text.take 100) ++ "..."),
        none, none⟩) ∧
    retryableKind .unknown = false := by
  refine ⟨?_, ?_, ?_, rfl⟩
  · intro h204
    unfold processResponse
    rw [if_pos hs, if_pos h204]
  · intro h204 v hv
    unfold processResponse
    rw [if_pos hs, if_neg h204, hv]
  · intro h204 hv
    unfold processResponse
    rw [if_pos hs, if_neg h204, hv]

/-- Witness for C8: a bodyless 204, a JSON 200 and a 200 with an
unparsable body. -/
theorem success_response_parsing_witness :
    processResponse ⟨204, "", none, none⟩ = .ok (.obj []) ∧
    processResponse ⟨200, "[]", some (.arr []), none⟩ = .ok (.arr []) ∧
    processResponse ⟨200, "oops", none, none⟩ = .error ⟨.unknown, some 200,
      .str ("Invalid JSON response: " ++ (("oops" : String).take 100) ++ "..."),
      none, none⟩ :=
  ⟨(success_response_parsing ⟨204, "", none, none⟩ rfl).1 rfl,
   (success_response_parsing ⟨200, "[]", some (.arr []), none⟩ rfl).2.1
     (by decide) (.arr []) rfl,
   (success_response_parsing ⟨200, "oops", none, none⟩ rfl).2.2.1
     (by decide) rfl⟩

/-- C2: a failed attempt is retried iff its error kind is RateLimited,
ServerError or Transport and the attempt number is below the configured
maximum; Authentication, NotFound, Validation and Unknown terminate
immediately.  With max_attempts = 3, ServerError on attempts 1 and 2
and success on attempt 3 returns the success after exactly 3 attempts;
Authentication on attempt 1 makes exactly 1 attempt. -/
theorem retry_policy_iff :
    (retryableKind .rateLimited = true ∧ retryableKind .serverError = true ∧
      retryableKind .transport = true ∧ retryableKind .authentication = false ∧
      retryableKind .notFound = false ∧ retryableKind .validation = false ∧
      retryableKind .unknown = false) ∧
    (∀ (att : Nat → Except ApiError JValue) (m fuel n : Nat) (e : ApiError),
      att n = .error e → retryableKind e.kind = true → n < m →
      retryLoop att m (fuel + 1) n = retryLoop att m fuel (n + 1)) ∧
    (∀ (att : Nat → Except ApiError JValue) (m fuel n : Nat) (e : ApiError),
      att n = .error e → retryableKind e.kind = false →
      retryLoop att m fuel n = (.error e, n)) ∧
    (∀ (att : Nat → Except ApiError JValue) (m fuel n : Nat) (e : ApiError),
      att n = .error e → ¬ n < m →
      retryLoop att m fuel n = (.error e, n)) ∧
    (makeRequest
      (fun n => if n < 3 then .error ⟨.serverError, some 500, .str "boom", none, none⟩
                else .ok (.str "done")) 3
      = (.ok (.str "done"), 3)) ∧
    (makeRequest
      (fun _ => .error ⟨.authentication, some 401, .str "denied", none, none⟩) 3
      = (.error ⟨.authentication, some 401, .str "denied", none, none⟩, 1)) := by
  refine ⟨⟨rfl, rfl, rfl, rfl, rfl, rfl, rfl⟩, ?_, ?_, ?_, rfl, rfl⟩
  · intro att m fuel n e he hr hn
    conv_lhs => unfold retryLoop
    rw [he]
    dsimp only
    rw [if_pos ⟨hr, hn⟩]
  · intro att m fuel n e he hr
    cases fuel with
    | zero =>
      unfold retryLoop
      rw [he]
    | succ f =>
      unfold retryLoop
      rw [he]
      dsimp only
      rw [if_neg (fun hc => by rw [hr] at hc; exact Bool.false_ne_true hc.1)]
  · intro att m fuel n e he hn
    cases fuel with
    | zero =>
      unfold retryLoop
      rw [he]
    | succ f =>
      unfold retryLoop
      rw [he]
      dsimp only
      rw [if_neg (fun hc => hn hc.2)]

/-- Witness for C2's retry/terminate steps at a concrete attempt
function. -/
theorem retry_policy_iff_witness :
    retryLoop (fun _ => .error ⟨.serverError, some 500, .str "boom", none, none⟩) 3 3 1
      = retryLoop (fun _ => .error ⟨.serverError, some 500, .str "boom", none, none⟩) 3 2 2 ∧
    retryLoop (fun _ => .error ⟨.notFound, some 404, .str "gone", none, none⟩) 3 3 1
      = (.error ⟨.notFound, some 404, .str "gone", none, none⟩, 1) ∧
    retryLoop (fun _ => .error ⟨.serverError, some 500, .str "boom", none, none⟩) 3 0 3
      = (.error ⟨.serverError, some 500, .str "boom", none, none⟩, 3) :=
  ⟨retry_policy_iff.2.1 _ 3 2 1 _ rfl rfl (by decide),
   retry_policy_iff.2.2.1 _ 3 3 1 _ rfl rfl,
   retry_policy_iff.2.2.2.1 _ 3 0 3 _ rfl (by decide)⟩

/-- C4: the executor never swallows or wraps an outcome: whatever
`makeRequest` resolves to — success payload or error — is verbatim the
outcome of the last attempt it made; in particular, when retries are
exhausted the caller receives the last classified `ApiError` itself. -/
theorem retry_surfaces_last_outcome :
    ∀ (att : Nat → Except ApiError JValue) (m fuel n : Nat),
      (∀ e, (retryLoop att m fuel n).1 = .error e →
        att (retryLoop att m fuel n).2 = .error e) ∧
      (∀ v, (retryLoop att m fuel n).1 = .ok v →
        att (retryLoop att m fuel n).2 = .ok v) ∧
      (∀ e, (makeRequest att m).1 = .error e →
        att (makeRequest att m).2 = .error e) := by
  have main : ∀ (att : Nat → Except ApiError JValue) (m fuel n : Nat),
      (∀ e, (retryLoop att m fuel n).1 = .error e →
        att (retryLoop att m fuel n).2 = .error e) ∧
      (∀ v, (retryLoop att m fuel n).1 = .ok v →
        att (retryLoop att m fuel n).2 = .ok v) := by
    intro att m fuel
    induction fuel with
    | zero =>
      intro n
      unfold retryLoop
      cases hatt : att n with
      | ok v =>
        dsimp only
        exact ⟨fun e he => Except.noConfusion he,
               fun w hw => by rw [hatt]; exact hw⟩
      | error e' =>
        dsimp only
        exact ⟨fun e he => by rw [hatt]; exact he,
               fun w hw => Except.noConfusion hw⟩
    | succ fuel ih =>
      intro n
      unfold retryLoop
      cases hatt : att n with
      | ok v =>
        dsimp only
        exact ⟨fun e he => Except.noConfusion he,
               fun w hw => by rw [hatt]; exact hw⟩
      | error e' =>
        dsimp only
        by_cases hc : retryableKind e'.kind = true ∧ n < m
        · constructor
          · intro e he
            rw [if_pos hc] at he ⊢
            exact (ih (n + 1)).1 e he
          · intro w hw
            rw [if_pos hc] at hw ⊢
            exact (ih (n + 1)).2 w hw
        · constructor
          · intro e he
            rw [if_neg hc] at he ⊢
            dsimp only at he ⊢
            rw [hatt]
            exact he
          · intro w hw
            rw [if_neg hc] at hw
            exact Except.noConfusion hw
  intro att m fuel n
  exact ⟨(main att m fuel n).1, (main att m fuel n).2,
    fun e => (main att m m 1).1 e⟩

/-- Witness for C4 at exhausted retries on a concrete attempt
function: the surfaced error is the one raised by the last attempt. -/
theorem retry_surfaces_last_outcome_witness :
    (fun _ : Nat => (Except.error ⟨.serverError, some 500, .str "boom", none, none⟩ :
        Except ApiError JValue))
      ((makeRequest
        (fun _ : Nat => (Except.error ⟨.serverError, some 500, .str "boom", none, none⟩ :
          Except ApiError JValue)) 3).2)
      = Except.error ⟨.serverError, some 500, .str "boom", none, none⟩ :=
  (retry_surfaces_last_outcome
    (fun _ : Nat => (Except.error ⟨.serverError, some 500, .str "boom", none, none⟩ :
      Except ApiError JValue)) 3 3 1).2.2
    ⟨.serverError, some 500, .str "boom", none, none⟩ rfl

/-- The JSON object `get_provider_availability` builds for one
consecutive pair, as a function of the decoded `TimeSlot`. -/
def slotObj (t : TimeSlot) : JValue :=
  .obj [("start", .str t.start), ("end", .str t.«end»)]

lemma pairTimes_length : ∀ ts : List String, (pairTimes ts).length = ts.length - 1
  | [] => rfl
  | [_] => rfl
  | x :: y :: rest => by
    have ih := pairTimes_length (y :: rest)
    simp only [pairTimes, List.length_cons] at ih ⊢
    omega

lemma pairTimes_getq : ∀ (ts : List String) (i : Nat),
    (pairTimes ts).get? i =
      (ts.get? i).bind (fun a => (ts.get? (i + 1)).map (fun b => (⟨a, b⟩ : TimeSlot)))
  | [], i => by simp [pairTimes]
  | [x], i => by cases i <;> simp [pairTimes]
  | x :: y :: rest, 0 => by simp [pairTimes]
  | x :: y :: rest, i + 1 => by
    have ih := pairTimes_getq (y :: rest) i
    simp only [pairTimes, List.get?_cons_succ]
    exact ih

lemma pairSlots_map_str : ∀ ts : List String,
    pairSlots (ts.map JValue.str) = (pairTimes ts).map slotObj
  | [] => rfl
  | [_] => rfl
  | x :: y :: rest => by
    have ih := pairSlots_map_str (y :: rest)
    simp only [List.map_cons] at ih ⊢
    simp only [pairSlots, pairTimes, List.map_cons]
    rw [ih]
    rfl

lemma pairTimes_mem : ∀ (ts : List String) (t : TimeSlot), t ∈ pairTimes ts →
    t.start ∈ ts ∧ t.«end» ∈ ts
  | [], t, ht => absurd ht (List.not_mem_nil t)
  | [_], t, ht => absurd ht (List.not_mem_nil t)
  | x :: y :: rest, t, ht => by
    rcases List.mem_cons.mp ht with h | h
    · rw [h]
      exact ⟨List.mem_cons_self x (y :: rest),
        List.mem_cons_of_mem x (List.mem_cons_self y rest)⟩
    · have ih := pairTimes_mem (y :: rest) t h
      exact ⟨List.mem_cons_of_mem x ih.1, List.mem_cons_of_mem x ih.2⟩

lemma mapM_slotObj (vt : String → Bool) (sl : List TimeSlot)
    (h : ∀ t ∈ sl, vt t.start = true ∧ vt t.«end» = true) :
    (sl.map slotObj).mapM (validateTimeSlot vt) = some sl := by
  induction sl with
  | nil => rfl
  | cons t rest ih =>
    have ht := h t (List.mem_cons_self t rest)
    have hv : validateTimeSlot vt (slotObj t)
        = if vt t.start = true ∧ vt t.«end» = true
          then some ⟨t.start, t.«end»⟩ else none := rfl
    simp only [List.map_cons, List.mapM_cons]
    rw [hv, if_pos ht, ih (fun z hz => h z (List.mem_cons_of_mem t hz))]
    rfl

/-- C10: in `get_provider_availability`, a list payload of `n`
validator-accepted time strings yields an Availability whose
`available` list is exactly the `n-1` consecutive `start`/`end`
pairs in order (empty for `n ≤ 1`); a dict payload containing the key
`available` passes that value through verbatim as the `available`
argument; every other payload shape passes the empty list. -/
theorem availability_assembly :
    (∀ (vt : String → Bool) (ts : List String), (∀ s ∈ ts, vt s = true) →
      getProviderAvailability vt (.arr (ts.map JValue.str)) = some ⟨pairTimes ts⟩) ∧
    (∀ ts : List String, (pairTimes ts).length = ts.length - 1) ∧
    (∀ (ts : List String) (i : Nat), (pairTimes ts).get? i =
      (ts.get? i).bind (fun a => (ts.get? (i + 1)).map (fun b => (⟨a, b⟩ : TimeSlot)))) ∧
    (∀ fields v, fields.lookup "available" = some v →
      availableSlots (.obj fields) = v) ∧
    (∀ fields, fields.lookup "available" = none →
      availableSlots (.obj fields) = .arr []) ∧
    (∀ vt, getProviderAvailability vt .null = some ⟨[]⟩) ∧
    (∀ vt s, getProviderAvailability vt (.str s) = some ⟨[]⟩) ∧
    (∀ vt n, getProviderAvailability vt (.num n) = some ⟨[]⟩) ∧
    (∀ vt b, getProviderAvailability vt (.bool b) = some ⟨[]⟩) := by
  refine ⟨?_, pairTimes_length, pairTimes_getq, ?_, ?_,
    fun _ => rfl, fun _ _ => rfl, fun _ _ => rfl, fun _ _ => rfl⟩
  · intro vt ts h
    have h1 : availableSlots (.arr (ts.map JValue.str))
        = .arr ((pairTimes ts).map slotObj) := by
      simp only [availableSlots]
      rw [pairSlots_map_str ts]
    unfold getProviderAvailability
    rw [h1]
    simp only [mkAvailability]
    rw [mapM_slotObj vt (pairTimes ts) (fun t ht =>
      ⟨h t.start (pairTimes_mem ts t ht).1, h t.«end» (pairTimes_mem ts t ht).2⟩)]
    rfl
  · intro fields v h
    simp only [availableSlots]
    rw [h]
  · intro fields h
    simp only [availableSlots]
    rw [h]

/-- Witness for C10: three consecutive time strings yield two slots;
a dict with an `available` key passes it through. -/
theorem availability_assembly_witness :
    getProviderAvailability (fun _ => true)
      (.arr [JValue.str "10:00", JValue.str "10:15", JValue.str "10:30"])
      = some ⟨[⟨"10:00", "10:15"⟩, ⟨"10:15", "10:30"⟩]⟩ ∧
    availableSlots (.obj [("available", .arr [])]) = .arr [] :=
  ⟨(availability_assembly.1 (fun _ => true) ["10:00", "10:15", "10:30"]
      (fun _ _ => rfl)).trans rfl,
   availability_assembly.2.2.2.1 [("available", .arr [])] (.arr []) rfl⟩

end EasyAppointments
